import Mathlib

/-!
Verification of the hcache analysis pipeline (`tests/analysis/*.py`).

The Python parsers are embedded shallowly over `List Char`:
Python string operations (`split`, `in`, `replace`, `strip`, `lower`) and the
specific regular expressions used by the code are translated into executable
Lean functions, numeric values are modelled exactly over `Rat`
(CPython floats are modelled by exact rationals), and code that can raise an
exception is modelled in `Except String`.
-/

set_option maxRecDepth 20000
set_option synthInstance.maxSize 1000
set_option linter.unusedVariables false

deriving instance DecidableEq for Except

/- Rational arithmetic is used to model CPython's real-number semantics
exactly; the following lets concrete values evaluate inside `decide`. -/
set_option allowUnsafeReducibility true
attribute [local semireducible] Rat.add Rat.mul Rat.sub Rat.div Rat.inv Rat.neg

namespace HCache

/-! ## Python character classes (ASCII as used by the data at hand) -/

/-- Whitespace characters recognised by Python's `\s`, `str.strip()` and
`str.split()` for the ASCII inputs handled by the analyzers. -/
def isPyWs (c : Char) : Bool :=
  c = ' ' ∨ c = '\t' ∨ c = '\n' ∨ c = '\r' ∨ c = '\x0b' ∨ c = '\x0c'

/-- Digit characters (`\d` over ASCII input). -/
def isDigitC (c : Char) : Bool := '0' ≤ c ∧ c ≤ '9'

/-- Word characters (`\w` over ASCII input). -/
def isWordC (c : Char) : Bool :=
  ('a' ≤ c ∧ c ≤ 'z') ∨ ('A' ≤ c ∧ c ≤ 'Z') ∨ isDigitC c ∨ c = '_'

/-! ## Python string primitives over `List Char` -/

/-- Does `pat` occur at the start of `cs`? -/
def startsWithL : List Char → List Char → Bool
  | [], _ => true
  | _ :: _, [] => false
  | p :: ps, c :: cs => p = c && startsWithL ps cs

/-- Python `pat in s` (substring containment). -/
def containsSubL (pat : List Char) : List Char → Bool
  | [] => startsWithL pat []
  | c :: cs => startsWithL pat (c :: cs) || containsSubL pat cs

/-- Python `s.split(sep)` for a non-empty separator `s1 :: srest`:
split on every non-overlapping occurrence, scanning left to right.
The fuel argument (instantiated with the length of the string, which always
suffices since every step consumes at least one character) keeps the
recursion structural so that terms evaluate inside the kernel. -/
def splitOnLF (s1 : Char) (srest : List Char) : Nat → List Char → List (List Char)
  | _, [] => [[]]
  | 0, cs => [cs]
  | fuel + 1, c :: cs =>
    if c = s1 ∧ startsWithL srest cs then
      [] :: splitOnLF s1 srest fuel (cs.drop srest.length)
    else
      match splitOnLF s1 srest fuel cs with
      | [] => [[c]]
      | h :: t => (c :: h) :: t

/-- Python `s.split(sep)`; an empty separator never occurs in the sources. -/
def splitOnS (sep : List Char) (cs : List Char) : List (List Char) :=
  match sep with
  | [] => [cs]
  | s1 :: srest => splitOnLF s1 srest cs.length cs

/-- Python `s.replace(old, new)` (replace all occurrences). -/
def replaceAllL (old new cs : List Char) : List Char :=
  List.intercalate new (splitOnS old cs)

/-- Python `s.strip()`. -/
def stripL (cs : List Char) : List Char :=
  ((cs.dropWhile isPyWs).reverse.dropWhile isPyWs).reverse

/-- Python `s.split()` (split on whitespace runs, discarding empty fields). -/
def splitWsL : List Char → List (List Char)
  | [] => []
  | c :: cs =>
    if isPyWs c then splitWsL cs
    else
      match splitWsL cs, cs with
      | w :: ws, c2 :: _ =>
        if isPyWs c2 then [c] :: w :: ws else (c :: w) :: ws
      | _, _ => [[c]]

/-- Python `s.lower()` (ASCII case folding, which covers the keywords used). -/
def lowerL (cs : List Char) : List Char := cs.map Char.toLower

/-- Python `int(s)` on a string of decimal digits. -/
def natOfDigits (cs : List Char) : Nat :=
  cs.foldl (fun n c => 10 * n + (c.toNat - '0'.toNat)) 0

/-- Decimal digits of a natural number, as produced by Python `str(n)`. -/
def natReprL (n : Nat) : List Char := (Nat.repr n).data

/-- Python `float(s)` on sign-free decimal literals made of digits and dots
(the only shapes reaching `float()` in the analyzers): valid iff the string
has at least one digit and at most one dot.  The exact rational value is
returned; exotic accepted forms of CPython (exponents, `inf`, `nan`,
surrounding whitespace) do not occur in the captured groups. -/
def parseFloatL (cs : List Char) : Option Rat :=
  let cs := if cs.headD ' ' = '-' ∨ cs.headD ' ' = '+' then cs.tail else cs
  if cs.all (fun c => isDigitC c ∨ c = '.') ∧ cs.any isDigitC ∧
      (cs.count '.') ≤ 1 then
    match splitOnS ['.'] cs with
    | [intPart] => some (natOfDigits intPart)
    | [intPart, fracPart] =>
        some ((natOfDigits intPart : Rat) +
          (natOfDigits fracPart : Rat) / ((10 : Rat) ^ fracPart.length))
    | _ => none
  else none

/-- Python `float(s)` where failure raises `ValueError`. -/
def parseFloatE (cs : List Char) : Except String Rat :=
  match parseFloatL cs with
  | some q => .ok q
  | none => .error "ValueError: could not convert string to float"

/-! ## Generic lazy-gap regex scaffolding

`scanLit lit p` models the regex fragment `.*?lit` (DOTALL) followed by the
continuation `p`: it tries the earliest occurrence of `lit` and, if the
continuation fails there, backtracks to the next occurrence — exactly the
behaviour of a lazy gap in a backtracking engine. -/

def scanLit (lit : List Char) (p : List Char → Option β) : List Char → Option β
  | [] => none
  | c :: cs =>
    if startsWithL lit (c :: cs) then
      match p ((c :: cs).drop lit.length) with
      | some r => some r
      | none => scanLit lit p cs
    else scanLit lit p cs

/-- Longest run of characters satisfying `f` at the front, plus the rest. -/
def takeRun (f : Char → Bool) (cs : List Char) : List Char × List Char :=
  (cs.takeWhile f, cs.dropWhile f)

end HCache

namespace HCache

/-! ## BenchmarkTextParser — `benchmark_analyzer.py`

`parse_benchmark_file` matches each line against
`^(Benchmark\w+)(?:-(\d+))?\s+(\d+)\s+(\d+(?:\.\d+)?) ns/op(?:\s+(\d+) B/op)?(?:\s+(\d+) allocs/op)?$`
and builds one record per matching line. -/

/-- Captured groups of the benchmark-line regex. -/
structure BenchGroups where
  name : List Char
  procs : Option (List Char)
  iterations : List Char
  nsPerOp : List Char
  bytesPerOp : Option (List Char)
  allocsPerOp : Option (List Char)
deriving DecidableEq

/-- Require at least one whitespace character (`\s+`), then continue. -/
def reqWs (cs : List Char) : Option (List Char) :=
  match cs with
  | c :: rest => if isPyWs c then some (rest.dropWhile isPyWs) else none
  | [] => none

/-- Greedy `\d+` capture. -/
def reqDigits (cs : List Char) : Option (List Char × List Char) :=
  match takeRun isDigitC cs with
  | ([], _) => none
  | (ds, rest) => some (ds, rest)

/-- Match `(\d+(?:\.\d+)?)` followed by the literal ` ns/op`
(backtracking over the optional fractional part as the engine would). -/
def reqFloatNsOp (cs : List Char) : Option (List Char × List Char) := do
  let (ds, rest) ← reqDigits cs
  let withFrac : Option (List Char × List Char) :=
    match rest with
    | '.' :: rest2 =>
      match takeRun isDigitC rest2 with
      | ([], _) => none
      | (fs, rest3) =>
        if startsWithL " ns/op".data rest3 then
          some (ds ++ '.' :: fs, rest3.drop 6)
        else none
    | _ => none
  match withFrac with
  | some r => some r
  | none =>
    if startsWithL " ns/op".data rest then some (ds, rest.drop 6) else none

/-- Match `\s+(\d+) tag` (one optional suffix group), anchored where tried. -/
def reqTagged (tag : List Char) (cs : List Char) : Option (List Char × List Char) := do
  let rest ← reqWs cs
  let (ds, rest2) ← reqDigits rest
  if startsWithL tag rest2 then some (ds, rest2.drop tag.length) else none

/-- Match the two optional suffix groups then the end anchor `$`, trying the
alternatives in the backtracking order of the regex engine. -/
def reqSuffix (cs : List Char) : Option (Option (List Char) × Option (List Char)) :=
  let tryAllocs (cs2 : List Char) : Option (Option (List Char)) :=
    match reqTagged " allocs/op".data cs2 with
    | some (as2, []) => some (some as2)
    | _ => if cs2 = [] then some none else none
  match reqTagged " B/op".data cs with
  | some (bs, rest) =>
    (match tryAllocs rest with
     | some aOpt => some (some bs, aOpt)
     | none =>
       match tryAllocs cs with
       | some aOpt => some (none, aOpt)
       | none => none)
  | none =>
    match tryAllocs cs with
    | some aOpt => some (none, aOpt)
    | none => none

/-- The part of the benchmark-line regex after the name and the optional
parallelism suffix: `\s+(\d+)\s+(\d+(?:\.\d+)?) ns/op` plus the optional
groups and the end anchor. -/
def benchLineTail (name : List Char) (procs : Option (List Char))
    (cs : List Char) : Option BenchGroups := do
  let cs1 ← reqWs cs
  let (iters, cs2) ← reqDigits cs1
  let cs3 ← reqWs cs2
  let (ns, cs4) ← reqFloatNsOp cs3
  let (bOpt, aOpt) ← reqSuffix cs4
  some ⟨name, procs, iters, ns, bOpt, aOpt⟩

/-- After the name `Benchmark\w+`: the optional `(?:-(\d+))?` group is
taken greedily when a `-`-digit run follows, falling back (as the engine's
backtracking would) to treating the suffix as part of the whitespace/fields
tail when the tail fails with it consumed. -/
def benchLineRest (name : List Char) (rest : List Char) : Option BenchGroups :=
  match rest with
  | '-' :: rest2 =>
    (if (rest2.takeWhile isDigitC).isEmpty then none
     else
       match benchLineTail name (some (rest2.takeWhile isDigitC))
           (rest2.dropWhile isDigitC) with
       | some g => some g
       | none => benchLineTail name none rest)
  | _ => benchLineTail name none rest

/-- Anchored match of the full benchmark-line regex. -/
def benchLineMatch (line : List Char) : Option BenchGroups :=
  if startsWithL "Benchmark".data line then
    if ((line.drop 9).takeWhile isWordC).isEmpty then none
    else
      benchLineRest ("Benchmark".data ++ (line.drop 9).takeWhile isWordC)
        ((line.drop 9).dropWhile isWordC)
  else none

/-- A parsed benchmark record (`result` dict of `parse_benchmark_file`). -/
structure BenchRecord where
  name : List Char
  full_name : List Char
  procs : Nat
  iterations : Nat
  ns_per_op : Rat
  bytes_per_op : Nat
  allocs_per_op : Nat
  params : List (List Char × List Char)
deriving DecidableEq

/-- Python dict insertion: overwrite in place if the key exists, else append. -/
def dictInsert (m : List (List Char × List Char)) (k v : List Char) :
    List (List Char × List Char) :=
  if m.any (fun kv => kv.1 = k) then
    m.map (fun kv => if kv.1 = k then (k, v) else kv)
  else m ++ [(k, v)]

/-- Parameter extraction from the `/key=value` segments of a benchmark name
(`part.split('=', 1)` keeps any further `=` inside the value). -/
def benchParams (segs : List (List Char)) : List (List Char × List Char) :=
  segs.foldl
    (fun m seg =>
      if containsSubL ['='] seg then
        match splitOnS ['='] seg with
        | [] => m
        | k :: vs => dictInsert m k (List.intercalate ['='] vs)
      else m) []

/-- Build the record for one matched line (lines 74–97 of the source). -/
def buildBenchRecord (g : BenchGroups) : BenchRecord :=
  let nameParts := splitOnS ['/'] g.name
  let baseName := nameParts.headD []
  { name := baseName
    full_name := g.name
    procs := match g.procs with | some ds => natOfDigits ds | none => 1
    iterations := natOfDigits g.iterations
    ns_per_op := (parseFloatL g.nsPerOp).getD 0
    bytes_per_op := match g.bytesPerOp with | some ds => natOfDigits ds | none => 0
    allocs_per_op := match g.allocsPerOp with | some ds => natOfDigits ds | none => 0
    params := benchParams nameParts.tail }

/-- `parse_benchmark_file` on file content: one record per matching line,
non-matching lines are skipped, and nothing can raise. -/
def parse_benchmark_file (content : String) : List BenchRecord :=
  (splitOnS ['\n'] content.data).filterMap
    (fun line => (benchLineMatch line).map buildBenchRecord)

end HCache

namespace HCache

/-! ## HitRatioLogParser — `hitratio_analyzer.py`

`parse_test_output` applies (with `re.DOTALL`)

`测试结果:.*?总操作数:\s+(\d+).*?命中数:\s+(\d+).*?未命中数:\s+(\d+).*?命中率:\s+([\d.]+)%.*?淘汰数:\s+(\d+).*?淘汰比率:\s+([\d.]+)%.*?持续时间:\s+([0-9.]+[µnm]?s)`

via `re.findall` and, per match, resolves categorical parameters from
`content.split(f"总操作数: {total_ops}")[0].split("=== RUN")[-1]`. -/

/-- Captured groups of one statistics-block match. -/
structure RawHit where
  totalStr : List Char
  hitsStr : List Char
  missesStr : List Char
  ratioStr : List Char
  evicStr : List Char
  evRatioStr : List Char
  durStr : List Char
deriving DecidableEq

/-- Field fragment `\s+(\d+)`. -/
def pWsDigits (cs : List Char) : Option (List Char × List Char) := do
  let rest ← reqWs cs
  reqDigits rest

/-- Field fragment `\s+([\d.]+)%`. -/
def pWsPct (cs : List Char) : Option (List Char × List Char) := do
  let rest ← reqWs cs
  match takeRun (fun c => isDigitC c ∨ c = '.') rest with
  | ([], _) => none
  | (run, rest2) =>
    match rest2 with
    | '%' :: r => some (run, r)
    | _ => none

/-- Field fragment `\s+([0-9.]+[µnm]?s)` (the whole group is captured). -/
def pWsDur (cs : List Char) : Option (List Char × List Char) := do
  let rest ← reqWs cs
  match takeRun (fun c => isDigitC c ∨ c = '.') rest with
  | ([], _) => none
  | (run, rest2) =>
    match rest2 with
    | c :: r =>
      if c = 'µ' ∨ c = 'n' ∨ c = 'm' then
        match r with
        | 's' :: r2 => some (run ++ [c, 's'], r2)
        | _ => none
      else if c = 's' then some (run ++ ['s'], r)
      else none
    | [] => none

/-- One match of the statistics-block pattern, with the remainder of the
input after the match (lazy gaps with backtracking, as in the engine). -/
def hitBlockMatch (cs : List Char) : Option (RawHit × List Char) :=
  scanLit "测试结果:".data (fun cs0 =>
    scanLit "总操作数:".data (fun cs1 =>
      (pWsDigits cs1).bind (fun (total, cs1b) =>
        scanLit "命中数:".data (fun cs2 =>
          (pWsDigits cs2).bind (fun (hits, cs2b) =>
            scanLit "未命中数:".data (fun cs3 =>
              (pWsDigits cs3).bind (fun (misses, cs3b) =>
                scanLit "命中率:".data (fun cs4 =>
                  (pWsPct cs4).bind (fun (ratio, cs4b) =>
                    scanLit "淘汰数:".data (fun cs5 =>
                      (pWsDigits cs5).bind (fun (evic, cs5b) =>
                        scanLit "淘汰比率:".data (fun cs6 =>
                          (pWsPct cs6).bind (fun (evRatio, cs6b) =>
                            scanLit "持续时间:".data (fun cs7 =>
                              (pWsDur cs7).bind (fun (dur, cs7b) =>
                                some (⟨total, hits, misses, ratio, evic,
                                       evRatio, dur⟩, cs7b)))
                              cs6b)) cs5b)) cs4b)) cs3b)) cs2b)) cs1b)) cs0) cs

/-- `re.findall` of the statistics-block pattern (each search resumes after
the end of the previous match); the fuel is the input length, which always
suffices since every match consumes at least one character. -/
def hitFindAll : Nat → List Char → List RawHit
  | 0, _ => []
  | fuel + 1, cs =>
    match hitBlockMatch cs with
    | none => []
    | some (m, rest) => m :: hitFindAll fuel rest

/-- Lines 98–99: the context used for parameter resolution — everything
before the first occurrence of `总操作数: <total>` in the whole content,
cut back to the last `=== RUN` before it. -/
def testContext (content : List Char) (total : Nat) : List Char :=
  let contextBefore :=
    (splitOnS ("总操作数: ".data ++ natReprL total) content).headD []
  (splitOnS "=== RUN".data contextBefore).getLastD []

/-- Lines 102–104: `re.search(r'Test(\w+)', test_context)`. -/
def searchTestName (ctx : List Char) : Option (List Char) :=
  scanLit "Test".data (fun rest =>
    match takeRun isWordC rest with
    | ([], _) => none
    | (w, _) => some w) ctx

/-- Lines 107–112: distribution keyword scan (first match wins). -/
def scanDistribution (ctx : List Char) : Option (List Char) :=
  if containsSubL "ZipfLow".data ctx then some "zipf-1.07".data
  else if containsSubL "ZipfHigh".data ctx then some "zipf-1.2".data
  else if containsSubL "Uniform".data ctx then some "uniform".data
  else none

/-- Lines 114–121: policy keyword scan (first match wins). -/
def scanPolicy (ctx : List Char) : Option (List Char) :=
  if containsSubL "LRU".data ctx then some "lru".data
  else if containsSubL "LFU".data ctx then some "lfu".data
  else if containsSubL "FIFO".data ctx then some "fifo".data
  else if containsSubL "Random".data ctx then some "random".data
  else none

/-- Lines 124–126: `re.search(r'Size(\d+)', test_context)`. -/
def searchSizeNum (ctx : List Char) : Option Nat :=
  scanLit "Size".data (fun rest =>
    match takeRun isDigitC rest with
    | ([], _) => none
    | (ds, _) => some (natOfDigits ds)) ctx

/-- Lines 123–134: cache size — explicit `Size<digits>` token, else the
`small`/`large` keyword buckets on the lowercased context, else 10000. -/
def resolveCacheSize (ctx : List Char) : Nat :=
  match searchSizeNum ctx with
  | some n => n
  | none =>
    if containsSubL "small".data (lowerL ctx) then 1000
    else if containsSubL "large".data (lowerL ctx) then 100000
    else 10000

/-- Lines 136–145: duration normalisation to milliseconds, checking the
unit suffixes `µs`, `ns`, `ms`, `s` in that order (substring containment,
as in the source); `float()` failure raises. -/
def durationMsE (durStr : List Char) : Except String Rat :=
  if containsSubL "µs".data durStr then
    (parseFloatE (replaceAllL "µs".data [] durStr)).map (fun q => q / 1000)
  else if containsSubL "ns".data durStr then
    (parseFloatE (replaceAllL "ns".data [] durStr)).map (fun q => q / 1000000)
  else if containsSubL "ms".data durStr then
    parseFloatE (replaceAllL "ms".data [] durStr)
  else if containsSubL "s".data durStr then
    (parseFloatE (replaceAllL "s".data [] durStr)).map (fun q => q * 1000)
  else .ok 0

/-- One parsed hit-ratio record (the `result` dict of lines 147–159). -/
structure HitRecord where
  test_name : Option (List Char)
  cache_size : Nat
  distribution : Option (List Char)
  policy : Option (List Char)
  total_operations : Nat
  hits : Nat
  misses : Nat
  hit_ratio : Rat
  evictions : Nat
  eviction_ratio : Rat
  duration_ms : Rat
deriving DecidableEq

/-- Lines 82–161: convert one regex match into a record; `float()` on the
captured ratio strings or the duration can raise (in source order). -/
def convertHitMatch (content : List Char) (m : RawHit) : Except String HitRecord :=
  let total := natOfDigits m.totalStr
  match parseFloatE m.ratioStr, parseFloatE m.evRatioStr, durationMsE m.durStr with
  | .ok hr, .ok er, .ok dm =>
    let ctx := testContext content total
    .ok { test_name := searchTestName ctx
          cache_size := resolveCacheSize ctx
          distribution := scanDistribution ctx
          policy := scanPolicy ctx
          total_operations := total
          hits := natOfDigits m.hitsStr
          misses := natOfDigits m.missesStr
          hit_ratio := hr
          evictions := natOfDigits m.evicStr
          eviction_ratio := er
          duration_ms := dm }
  | .error e, _, _ => .error e
  | _, .error e, _ => .error e
  | _, _, .error e => .error e

/-- Convert a list of matches left to right, raising at the first failure
(the per-match loop of `parse_test_output`). -/
def mapE (f : α → Except String β) : List α → Except String (List β)
  | [] => .ok []
  | a :: as =>
    match f a with
    | .error e => .error e
    | .ok b =>
      match mapE f as with
      | .error e => .error e
      | .ok bs => .ok (b :: bs)

/-- `parse_test_output` on file content. -/
def parse_test_output (content : String) : Except String (List HitRecord) :=
  mapE (convertHitMatch content.data)
    (hitFindAll (content.data.length + 1) content.data)

end HCache

namespace HCache

/-! ## JSON values and `json.loads` — used by `concurrency_analyzer.py`

A standard JSON recursive-descent reader modelling Python's `json.loads`:
numbers become exact rationals, objects keep their key order with later
duplicate keys winning on lookup (dict semantics), and the whole input must
be consumed (up to surrounding whitespace).  CPython extras that cannot
occur in the analyzer's inputs (`NaN`/`Infinity`, surrogate pairs) are not
modelled. -/

inductive Json where
  | null : Json
  | bool : Bool → Json
  | num : Rat → Json
  | str : List Char → Json
  | arr : List Json → Json
  | obj : List (List Char × Json) → Json

/-- JSON inter-token whitespace. -/
def isJsonWs (c : Char) : Bool := c = ' ' ∨ c = '\t' ∨ c = '\n' ∨ c = '\r'

def jskip (cs : List Char) : List Char := cs.dropWhile isJsonWs

/-- Decode one JSON string body (after the opening quote). -/
def jparseStrAux : Nat → List Char → Option (List Char × List Char)
  | 0, _ => none
  | _ + 1, [] => none
  | fuel + 1, c :: rest =>
    if c = '"' then some ([], rest)
    else if c = '\\' then
      match rest with
      | [] => none
      | e :: rest2 =>
        let dec : Option (Char × List Char) :=
          if e = '"' then some ('"', rest2)
          else if e = '\\' then some ('\\', rest2)
          else if e = '/' then some ('/', rest2)
          else if e = 'b' then some ('\x08', rest2)
          else if e = 'f' then some ('\x0c', rest2)
          else if e = 'n' then some ('\n', rest2)
          else if e = 'r' then some ('\r', rest2)
          else if e = 't' then some ('\t', rest2)
          else if e = 'u' then
            let hex := rest2.take 4
            if hex.length = 4 ∧ hex.all (fun h =>
                isDigitC h ∨ ('a' ≤ h ∧ h ≤ 'f') ∨ ('A' ≤ h ∧ h ≤ 'F')) then
              let hv := hex.foldl (fun n h =>
                16 * n + (if isDigitC h then h.toNat - '0'.toNat
                  else if 'a' ≤ h then h.toNat - 'a'.toNat + 10
                  else h.toNat - 'A'.toNat + 10)) 0
              some (Char.ofNat hv, rest2.drop 4)
            else none
          else none
        match dec with
        | none => none
        | some (ch, rest3) =>
          match jparseStrAux fuel rest3 with
          | none => none
          | some (s, r) => some (ch :: s, r)
    else
      match jparseStrAux fuel rest with
      | none => none
      | some (s, r) => some (c :: s, r)

/-- Parse a JSON number `-?(0|[1-9][0-9]*)(\.[0-9]+)?([eE][+-]?[0-9]+)?`
into an exact rational. -/
def jparseNum (cs : List Char) : Option (Rat × List Char) :=
  let neg : Bool := cs.headD ' ' = '-'
  let cs1 : List Char := if neg then cs.tail else cs
  let intRun : Option (List Char × List Char) :=
    match cs1 with
    | '0' :: r => some (['0'], r)
    | c :: _ => if isDigitC c then some (takeRun isDigitC cs1) else none
    | [] => none
  match intRun with
  | none => none
  | some (ids, rest1) =>
    let fracPart : Option (List Char × List Char) :=
      match rest1 with
      | '.' :: r =>
        match takeRun isDigitC r with
        | ([], _) => none
        | (fs, r2) => some (fs, r2)
      | _ => some ([], rest1)
    match fracPart with
    | none => none
    | some (fds, rest2) =>
      let expPart : Option (Bool × List Char × List Char) :=
        match rest2 with
        | c :: r =>
          if c = 'e' ∨ c = 'E' then
            let (eneg, r2) := match r with
              | '-' :: rr => (true, rr)
              | '+' :: rr => (false, rr)
              | _ => (false, r)
            match takeRun isDigitC r2 with
            | ([], _) => none
            | (eds, r3) => some (eneg, eds, r3)
          else some (false, ['0'], rest2)
        | [] => some (false, ['0'], rest2)
      match expPart with
      | none => none
      | some (eneg, eds, rest3) =>
        let mag : Rat :=
          (natOfDigits ids : Rat) +
            (natOfDigits fds : Rat) / ((10 : Rat) ^ fds.length)
        let e := natOfDigits eds
        let mag := if eneg then mag / ((10 : Rat) ^ e) else mag * ((10 : Rat) ^ e)
        some (if neg then -mag else mag, rest3)

mutual

/-- Parse one JSON value. -/
def jparseVal : Nat → List Char → Option (Json × List Char)
  | 0, _ => none
  | fuel + 1, cs =>
    match jskip cs with
    | [] => none
    | c :: rest =>
      if c = 'n' then
        if startsWithL "ull".data rest then some (.null, rest.drop 3) else none
      else if c = 't' then
        if startsWithL "rue".data rest then some (.bool true, rest.drop 3) else none
      else if c = 'f' then
        if startsWithL "alse".data rest then some (.bool false, rest.drop 4) else none
      else if c = '"' then
        match jparseStrAux (rest.length + 1) rest with
        | none => none
        | some (s, r) => some (.str s, r)
      else if c = '[' then
        match jskip rest with
        | ']' :: r => some (.arr [], r)
        | rest2 =>
          match jparseElems fuel rest2 with
          | none => none
          | some (vs, r) => some (.arr vs, r)
      else if c = '\x7b' then
        match jskip rest with
        | '\x7d' :: r => some (.obj [], r)
        | rest2 =>
          match jparseMembers fuel rest2 with
          | none => none
          | some (kvs, r) => some (.obj kvs, r)
      else
        match jparseNum (c :: rest) with
        | none => none
        | some (q, r) => some (.num q, r)

/-- Parse the non-empty element list of an array, including the closing `]`. -/
def jparseElems : Nat → List Char → Option (List Json × List Char)
  | 0, _ => none
  | fuel + 1, cs =>
    match jparseVal fuel cs with
    | none => none
    | some (v, r) =>
      match jskip r with
      | ',' :: r2 =>
        match jparseElems fuel r2 with
        | none => none
        | some (vs, r3) => some (v :: vs, r3)
      | ']' :: r2 => some ([v], r2)
      | _ => none

/-- Parse the non-empty member list of an object, including the closing
brace. -/
def jparseMembers : Nat → List Char → Option (List (List Char × Json) × List Char)
  | 0, _ => none
  | fuel + 1, cs =>
    match jskip cs with
    | '"' :: rest =>
      (match jparseStrAux (rest.length + 1) rest with
       | none => none
       | some (k, r) =>
         match jskip r with
         | ':' :: r2 =>
           (match jparseVal fuel r2 with
            | none => none
            | some (v, r3) =>
              match jskip r3 with
              | ',' :: r4 =>
                (match jparseMembers fuel r4 with
                 | none => none
                 | some (kvs, r5) => some ((k, v) :: kvs, r5))
              | '\x7d' :: r4 => some ([(k, v)], r4)
              | _ => none)
         | _ => none)
    | _ => none

end

/-- Python `json.loads`: the whole input must be one JSON document. -/
def jsonLoadsL (cs : List Char) : Option Json :=
  match jparseVal (2 * cs.length + 4) cs with
  | some (v, rest) => if jskip rest = [] then some v else none
  | none => none

def jsonLoads (s : String) : Option Json := jsonLoadsL s.data

/-! ## LoadTestResultParser — `concurrency_analyzer.py` -/

/-- Python dict lookup on a parsed JSON object (later duplicates win). -/
def lookupLastJ (k : List Char) (kvs : List (List Char × Json)) : Option Json :=
  ((kvs.filter (fun kv => kv.1 = k)).getLast?).map (fun kv => kv.2)

/-- Python `item.get(k, d)`: raises `AttributeError` unless `item` is a
dict. -/
def jGetD (item : Json) (k : List Char) (d : Json) : Except String Json :=
  match item with
  | .obj kvs => .ok ((lookupLastJ k kvs).getD d)
  | _ => .error "AttributeError: get"

/-- The numeric value CPython arithmetic sees (`bool` is an `int` subclass). -/
def jNumVal : Json → Option Rat
  | .num q => some q
  | .bool b => some (if b then 1 else 0)
  | _ => none

/-- `item.get(k, d)` used in an arithmetic context: a present non-numeric
value raises `TypeError`. -/
def jGetNumD (item : Json) (k : List Char) (d : Rat) : Except String Rat := do
  let v ← jGetD item k (.num d)
  match jNumVal v with
  | some q => .ok q
  | none => .error "TypeError: unsupported operand type"

/-- The metrics dict built in lines 91–104 of `parse_vegeta_results`.
Fields stored without arithmetic keep their raw JSON value. -/
structure VegMetrics where
  latency_mean : Rat
  latency_p50 : Rat
  latency_p90 : Rat
  latency_p95 : Rat
  latency_p99 : Rat
  latency_max : Rat
  throughput : Json
  success_rate : Rat
  requests : Json
  duration : Rat
  errors : Json
  rate : Json

def extractVegMetrics (item : Json) : Except String VegMetrics := do
  let lat ← jGetD item "latencies".data (.obj [])
  let mean ← jGetNumD lat "mean".data 0
  let p50 ← jGetNumD lat "50th".data 0
  let p90 ← jGetNumD lat "90th".data 0
  let p95 ← jGetNumD lat "95th".data 0
  let p99 ← jGetNumD lat "99th".data 0
  let pmax ← jGetNumD lat "max".data 0
  let tp ← jGetD item "throughput".data (.num 0)
  let succ ← jGetNumD item "success".data 0
  let req ← jGetD item "requests".data (.num 0)
  let dur ← jGetNumD item "duration".data 0
  let err ← jGetD item "errors".data (.num 0)
  let rate ← jGetD item "rate".data (.num 0)
  .ok { latency_mean := mean / 1000000
        latency_p50 := p50 / 1000000
        latency_p90 := p90 / 1000000
        latency_p95 := p95 / 1000000
        latency_p99 := p99 / 1000000
        latency_max := pmax / 1000000
        throughput := tp
        success_rate := 100 * (1 - succ)
        requests := req
        duration := dur / 1000000000
        errors := err
        rate := rate }

/-- `os.path.basename`. -/
def basenameL (cs : List Char) : List Char := (splitOnS ['/'] cs).getLastD []

/-- `re.search(r'c(\d+)', basename)` (and the analogous `r(\d+)`). -/
def searchLetterNum (letter : Char) (cs : List Char) : Option Nat :=
  scanLit [letter] (fun rest =>
    match takeRun isDigitC rest with
    | ([], _) => none
    | (ds, _) => some (natOfDigits ds)) cs

/-- `re.search(r'd(\d+)([smh])', basename)`. -/
def searchDurSpec (cs : List Char) : Option (Nat × Char) :=
  scanLit ['d'] (fun rest =>
    match takeRun isDigitC rest with
    | ([], _) => none
    | (ds, rest2) =>
      match rest2 with
      | u :: _ => if u = 's' ∨ u = 'm' ∨ u = 'h' then some (natOfDigits ds, u) else none
      | [] => none) cs

/-- `re.search(r'cache-(\w+)', basename)`. -/
def searchCacheCfg (cs : List Char) : Option (List Char) :=
  scanLit "cache-".data (fun rest =>
    match takeRun isWordC rest with
    | ([], _) => none
    | (w, _) => some w) cs

/-- `re.search(r'(\d{8})', basename)`: leftmost run of 8 digits. -/
def searchDate8 : List Char → Option (List Char)
  | [] => none
  | c :: cs =>
    if ((c :: cs).take 8).length = 8 ∧ ((c :: cs).take 8).all isDigitC then
      some ((c :: cs).take 8)
    else searchDate8 cs

/-- Test parameters extracted in `extract_test_params` (lines 112–171). -/
structure VegParams where
  concurrency : Nat
  target_rate : Json
  target_duration : Rat
  cache_config : List Char
  test_date : List Char

def extract_test_params (filename : List Char) (data : Json) :
    Except String VegParams := do
  let basename := basenameL filename
  let concurrency := match searchLetterNum 'c' basename with
    | some n => n
    | none => 1
  let target_rate ← match searchLetterNum 'r' basename with
    | some n => pure (Json.num n)
    | none => jGetD data "rate".data (.num 0)
  let target_duration ← match searchDurSpec basename with
    | some (v, u) =>
      pure (if u = 's' then (v : Rat)
        else if u = 'm' then (v : Rat) * 60
        else (v : Rat) * 3600)
    | none => do
      let d ← jGetNumD data "duration".data 0
      pure (d / 1000000000)
  let cache_config := match searchCacheCfg basename with
    | some w => w
    | none => "default".data
  let test_date := match searchDate8 basename with
    | some ds => ds
    | none => "00000000".data
  .ok { concurrency := concurrency, target_rate := target_rate,
        target_duration := target_duration, cache_config := cache_config,
        test_date := test_date }

/-- One row of the frame returned by `parse_vegeta_results`
(`result = {**test_params, **metrics}`; the key sets are disjoint). -/
structure VegRecord where
  concurrency : Nat
  target_rate : Json
  target_duration : Rat
  cache_config : List Char
  test_date : List Char
  latency_mean : Rat
  latency_p50 : Rat
  latency_p90 : Rat
  latency_p95 : Rat
  latency_p99 : Rat
  latency_max : Rat
  throughput : Json
  success_rate : Rat
  requests : Json
  duration : Rat
  errors : Json
  rate : Json

def extractVegRecord (filename : List Char) (item : Json) :
    Except String VegRecord := do
  let p ← extract_test_params filename item
  let m ← extractVegMetrics item
  .ok { concurrency := p.concurrency, target_rate := p.target_rate,
        target_duration := p.target_duration, cache_config := p.cache_config,
        test_date := p.test_date,
        latency_mean := m.latency_mean, latency_p50 := m.latency_p50,
        latency_p90 := m.latency_p90, latency_p95 := m.latency_p95,
        latency_p99 := m.latency_p99, latency_max := m.latency_max,
        throughput := m.throughput, success_rate := m.success_rate,
        requests := m.requests, duration := m.duration,
        errors := m.errors, rate := m.rate }

/-- The items a result file's content decodes to (lines 66–81): whole-document
JSON (an array stays a list, anything else is wrapped into a singleton); on
failure, newline-delimited decoding where each line failing `json.loads` is
silently dropped. -/
def vegItems (content : List Char) : List Json :=
  match jsonLoadsL content with
  | some (.arr l) => l
  | some j => [j]
  | none =>
    (splitOnS ['\n'] (stripL content)).filterMap
      (fun line => if stripL line = [] then none else jsonLoadsL line)

/-- `parse_vegeta_results` on a filename and file content. -/
def parse_vegeta_results (filename content : String) :
    Except String (List VegRecord) :=
  mapE (extractVegRecord filename.data) (vegItems content.data)

end HCache

namespace HCache

/-! ## ProfileTableParser — `pprof_analyzer.py`, `extract_top_functions`

Only the text-processing part (lines 189–228) is embedded; producing the
`pprof -top` text via a subprocess is an out-of-scope external collaborator
per the spec. -/

/-- A top-functions row (lines 220–226). -/
structure TopRecord where
  flat_pct : Rat
  flat_val : List Char
  cum_pct : Rat
  cum_val : List Char
  function : List Char
deriving DecidableEq

/-- Line 193: `'flat' in line and 'cum' in line and '%' in line`. -/
def isHeaderLine (l : List Char) : Bool :=
  containsSubL "flat".data l && containsSubL "cum".data l && containsSubL ['%'] l

/-- Lines 203–226: one data row.  Blank rows and rows with fewer than five
whitespace-separated tokens are skipped; `float()` on a malformed first or
third token raises (`ValueError`), which `extract_top_functions` does not
catch (its handler is for subprocess errors only). -/
def parsePprofRow (line : List Char) : Except String (Option TopRecord) :=
  if stripL line = [] then .ok none
  else if (splitWsL (stripL line)).length < 5 then .ok none
  else
    match parseFloatL (replaceAllL ['%'] [] ((splitWsL (stripL line)).getD 0 [])),
          parseFloatL (replaceAllL ['%'] [] ((splitWsL (stripL line)).getD 2 [])) with
    | some fp, some cp =>
      .ok (some { flat_pct := fp
                  flat_val := (splitWsL (stripL line)).getD 1 []
                  cum_pct := cp
                  cum_val := (splitWsL (stripL line)).getD 3 []
                  function := List.intercalate [' '] ((splitWsL (stripL line)).drop 4) })
    | none, _ => .error "ValueError: could not convert string to float"
    | _, none => .error "ValueError: could not convert string to float"

/-- `extract_top_functions` on the captured tool output. -/
def extract_top_functions (stdout : String) : Except String (List TopRecord) :=
  let lines := splitOnS ['\n'] (stripL stdout.data)
  match lines.findIdx? isHeaderLine with
  | none => .ok []
  | some i =>
    if lines.length ≤ i + 1 then .ok []
    else
      match mapE parsePprofRow (lines.drop (i + 1)) with
      | .error e => .error e
      | .ok rows => .ok (rows.filterMap id)

/-! ## The directory loaders — `load_benchmark_results`,
`load_test_results`, `load_concurrency_results`

A directory listing is modelled as a list of files, each with a name and a
read outcome (`os.listdir` ordering and discovery are out of scope per the
spec: the caller supplies candidate files).  The optional regex filename
filter is abstracted as a predicate.  The `pd.to_datetime(date_str,
format='%Y%m%d')` calls raise `ValueError` on dates that do not exist,
which the embeddings model through `dateValid8`. -/

structure InFile where
  name : String
  read : Except String String

def isErr : Except String α → Bool
  | .error _ => true
  | .ok _ => false

def isLeapYear (y : Nat) : Bool := (y % 4 = 0 ∧ y % 100 ≠ 0) ∨ y % 400 = 0

def daysInMonth (y m : Nat) : Nat :=
  if m = 2 then (if isLeapYear y then 29 else 28)
  else if m = 4 ∨ m = 6 ∨ m = 9 ∨ m = 11 then 30
  else 31

/-- Does an 8-digit string denote a `%Y%m%d` date `pd.to_datetime` accepts:
a real calendar date that also lies inside the nanosecond `Timestamp` range
(midnights from 1677-09-22 through 2262-04-11; outside it the conversion
raises `OutOfBoundsDatetime`)? -/
def dateValid8 (ds : List Char) : Bool :=
  ds.length = 8 && ds.all isDigitC &&
    (let y := natOfDigits (ds.take 4)
     let m := natOfDigits ((ds.drop 4).take 2)
     let d := natOfDigits (ds.drop 6)
     1 ≤ m ∧ m ≤ 12 ∧ 1 ≤ d ∧ d ≤ daysInMonth y m ∧
       16770922 ≤ y * 10000 + m * 100 + d ∧
       y * 10000 + m * 100 + d ≤ 22620411)

/-- `re.search(r'(\w+)_(\d{8})\.txt', filename)`: leftmost start position,
greedy `\w+` giving back characters until `_`, eight digits and `.txt`
match. -/
def benchMetaCheckAt (cs : List Char) (k : Nat) : Option (List Char × List Char) :=
  match cs.drop k with
  | '_' :: r =>
    if (r.take 8).length = 8 ∧ (r.take 8).all isDigitC ∧
        startsWithL ".txt".data (r.drop 8) then
      some (cs.take k, r.take 8)
    else none
  | _ => none

def benchMetaTryKs (cs : List Char) : Nat → Option (List Char × List Char)
  | 0 => none
  | k + 1 =>
    match benchMetaCheckAt cs (k + 1) with
    | some r => some r
    | none => benchMetaTryKs cs k

def benchMetaSearch : List Char → Option (List Char × List Char)
  | [] => none
  | c :: cs =>
    match (if isWordC c then
        benchMetaTryKs (c :: cs) (takeRun isWordC (c :: cs)).1.length
      else none) with
    | some r => some r
    | none => benchMetaSearch cs

/-- `re.search(r'hitratio_(\d{8})\.(?:txt|log)', filename)`. -/
def hitDateSearch (cs : List Char) : Option (List Char) :=
  scanLit "hitratio_".data (fun rest =>
    if (rest.take 8).length = 8 ∧ (rest.take 8).all isDigitC ∧
        (startsWithL ".txt".data (rest.drop 8) ∨
         startsWithL ".log".data (rest.drop 8)) then
      some (rest.take 8)
    else none) cs

/-- Candidate filter of `load_benchmark_results` (suffix `.txt` plus the
optional pattern). -/
def benchCandidate (pattern : String → Bool) (f : InFile) : Bool :=
  ".txt".data.isSuffixOf f.name.data && pattern f.name

/-- Per-file body of the `load_benchmark_results` loop (lines 122–139):
read, extract filename metadata, parse, convert the date.  None of it is
inside a `try`, so any failure propagates out of the whole load. -/
def procBenchFile (f : InFile) : Except String (String × List BenchRecord) := do
  let dateStr := match benchMetaSearch f.name.data with
    | some (_, ds) => ds
    | none => "00000000".data
  let content ← f.read
  let recs := parse_benchmark_file content
  if dateValid8 dateStr then .ok (f.name, recs)
  else .error "ValueError: time data does not match format"

def load_benchmark_results (pattern : String → Bool) (files : List InFile) :
    Except String (List (String × List BenchRecord)) :=
  match mapE procBenchFile (files.filter (benchCandidate pattern)) with
  | .error e => .error e
  | .ok l => if l.isEmpty then .error "No benchmark results found" else .ok l

/-- Candidate filter of `load_test_results` (`.txt` or `.log`). -/
def hitCandidate (pattern : String → Bool) (f : InFile) : Bool :=
  (".txt".data.isSuffixOf f.name.data || ".log".data.isSuffixOf f.name.data) &&
    pattern f.name

/-- Per-file body of the `load_test_results` loop (lines 184–200): all of
read, parse and date conversion sit inside the `try`. -/
def procHitFile (f : InFile) : Except String (String × List HitRecord) := do
  let dateStr := (hitDateSearch f.name.data).getD "00000000".data
  let content ← f.read
  let recs ← parse_test_output content
  if dateValid8 dateStr then .ok (f.name, recs)
  else .error "ValueError: time data does not match format"

def load_test_results (pattern : String → Bool) (files : List InFile) :
    Except String (List (String × List HitRecord)) :=
  let l := (files.filter (hitCandidate pattern)).filterMap
    (fun f => (procHitFile f).toOption)
  if l.isEmpty then .error "No hit ratio test results found" else .ok l

/-- Candidate filter of `load_concurrency_results` (`.json` or `.vegeta`). -/
def concCandidate (pattern : String → Bool) (f : InFile) : Bool :=
  (".json".data.isSuffixOf f.name.data ||
    ".vegeta".data.isSuffixOf f.name.data) && pattern f.name

/-- Per-file body of the `load_concurrency_results` loop (lines 192–204):
read, parse, and — only when the frame is non-empty, since only then does a
`test_date` column exist — date conversion of every row, all inside the
`try`. -/
def procConcFile (f : InFile) : Except String (String × List VegRecord) := do
  let content ← f.read
  let recs ← parse_vegeta_results f.name content
  if recs.isEmpty then .ok (f.name, recs)
  else if recs.all (fun r => dateValid8 r.test_date) then .ok (f.name, recs)
  else .error "ValueError: time data does not match format"

def load_concurrency_results (pattern : String → Bool) (files : List InFile) :
    Except String (List (String × List VegRecord)) :=
  let l := (files.filter (concCandidate pattern)).filterMap
    (fun f => (procConcFile f).toOption)
  if l.isEmpty then .error "No concurrency test results found" else .ok l

end HCache

namespace HCache

/-! ## Analyzer state and descriptive statistics (for the idempotence claim)

`self.results` is the only cross-call state of an analyzer: each
`load_*` call rebuilds it from scratch from the supplied files and
`generate_descriptive_stats` only reads it.  The statistics are modelled by
the grouped means of `HitRatioAnalyzer.generate_descriptive_stats`
(grouping by distribution/policy/cache size; pandas drops groups whose key
contains a null). -/

structure HitStatsRow where
  distribution : List Char
  policy : List Char
  cache_size : Nat
  hit_ratio_mean : Rat
  eviction_ratio_mean : Rat
  duration_ms_mean : Rat

def ratMean (qs : List Rat) : Rat := qs.foldl (fun a b => a + b) 0 / qs.length

def generate_descriptive_stats (recs : List HitRecord) : List HitStatsRow :=
  let keyed := recs.filterMap (fun r =>
    match r.distribution, r.policy with
    | some d, some p => some ((d, p, r.cache_size), r)
    | _, _ => none)
  let keys := (keyed.map (fun kr => kr.1)).dedup
  keys.map (fun k =>
    let grp := (keyed.filter (fun kr => kr.1 = k)).map (fun kr => kr.2)
    { distribution := k.1, policy := k.2.1, cache_size := k.2.2
      hit_ratio_mean := ratMean (grp.map (fun r => r.hit_ratio))
      eviction_ratio_mean := ratMean (grp.map (fun r => r.eviction_ratio))
      duration_ms_mean := ratMean (grp.map (fun r => r.duration_ms)) })

structure BenchAnalyzer where
  results : Option (List (String × List BenchRecord))

structure HitAnalyzer where
  results : Option (List (String × List HitRecord))

/-- A `load_benchmark_results` call on an analyzer: on success the result
frame replaces (never extends) `self.results`. -/
def benchLoadStep (a : BenchAnalyzer) (pattern : String → Bool)
    (files : List InFile) :
    Except String (BenchAnalyzer × List (String × List BenchRecord)) :=
  match load_benchmark_results pattern files with
  | .error e => .error e
  | .ok l => .ok (⟨some l⟩, l)

/-- A `load_test_results` call on a `HitRatioAnalyzer`. -/
def hitLoadStep (a : HitAnalyzer) (pattern : String → Bool)
    (files : List InFile) :
    Except String (HitAnalyzer × List (String × List HitRecord)) :=
  match load_test_results pattern files with
  | .error e => .error e
  | .ok l => .ok (⟨some l⟩, l)

/-- `generate_descriptive_stats` on the analyzer (raises when nothing is
loaded). -/
def hitStatsStep (a : HitAnalyzer) : Except String (List HitStatsRow) :=
  match a.results with
  | none => .error "No hit ratio test results loaded"
  | some l => .ok (generate_descriptive_stats ((l.map (fun p => p.2)).flatten))

end HCache

namespace HCache

/-! ## Auxiliary definitions used by the claim statements -/

instance : Inhabited Json := ⟨Json.null⟩

instance : Inhabited VegRecord :=
  ⟨⟨1, Json.num 0, 0, [], [], 0, 0, 0, 0, 0, 0, Json.num 0, 0, Json.num 0, 0,
    Json.num 0, Json.num 0⟩⟩

/-- Dict lookup on accumulated parameters (later insertions win). -/
def lookupParam (m : List (List Char × List Char)) (k : List Char) :
    Option (List Char) :=
  ((m.filter (fun kv => kv.1 = k)).getLast?).map (fun kv => kv.2)

/-- The key/value reading of one name segment, as `part.split('=', 1)`
produces it for a segment containing `=`. -/
def splitFirstEq (seg : List Char) : Option (List Char × List Char) :=
  if containsSubL ['='] seg then
    match splitOnS ['='] seg with
    | [] => none
    | k :: vs => some (k, List.intercalate ['='] vs)
  else none

/-- A statistics block with total 1000 as it appears in a transcript. -/
def hitBlock1000 : String :=
  "测试结果:\n总操作数: 1000\n命中数: 800\n未命中数: 200\n命中率: 80.0%\n淘汰数: 50\n淘汰比率: 5.0%\n持续时间: 123.4ms\n"

/-- The transcript of the claimed worked example: one block preceded by a
`=== RUN` line whose test name carries `ZipfLow`, `LRU` and `Size5000`. -/
def c2Example : String := "=== RUN   TestZipfLow_LRU_Size5000\n" ++ hitBlock1000

/-- Counterexample transcript: two identical blocks (same total count 1000)
whose immediately preceding `=== RUN` contexts disagree. -/
def c2CtxB : String := "=== RUN   TestUniform_FIFO_Size5000\n"

def c2Cex : String := c2Example ++ c2CtxB ++ hitBlock1000

/-- Counterexample transcript for the cache-size claim: the context token
`Size0` makes the explicit cache size zero. -/
def c10Cex : String := "=== RUN   TestSize0\n" ++ hitBlock1000

/-- Witness transcript whose context resolves no keyword at all. -/
def c10Plain : String := "=== RUN   TestPlainRun\n" ++ hitBlock1000

/-- Concrete JSON items for the load-test success-rate claim. -/
def c1Item : Json := Json.obj [("success".data, Json.num ((19 : Rat)/20))]

def c1ItemEmpty : Json := Json.obj []

def c1Rec : VegRecord :=
  ((extractVegRecord "c8.json".data c1Item).toOption).getD default

def c1RecEmpty : VegRecord :=
  ((extractVegRecord "c8.json".data c1ItemEmpty).toOption).getD default

/-- Matched groups of a concrete benchmark line (for the C4 witness). -/
def c4G : BenchGroups :=
  (benchLineMatch "BenchmarkGet 1000 52.3 ns/op".data).getD
    ⟨[], none, [], [], none, none⟩

/-- Concrete benchmark file with five lines of which one is truncated. -/
def c5File : String :=
  "BenchmarkGet-8 1000 52.3 ns/op\nBenchmarkSet-8 500 105.0 ns/op 16 B/op 1 allocs/op\nBenchmarkDel 200 80 ns/op\nBenchmarkGet-8 1000 52.\nBenchmarkMix-4 100 33.3 ns/op 8 B/op"

/-- Concrete profiler row with an embedded-whitespace symbol. -/
def c8Row : List Char := "1.5% 2ms 30% 3ms runtime.foo extra".data

def c8Rec : TopRecord :=
  ((parsePprofRow c8Row).toOption.getD none).getD ⟨0, [], 0, [], []⟩

/-- The records of the worked example and of the keyword-free transcript. -/
def c2Recs : List HitRecord := (parse_test_output c2Example).toOption.getD []

def emptyHitRecord : HitRecord := ⟨none, 0, none, none, 0, 0, 0, 0, 0, 0, 0⟩

def c2Rec0 : HitRecord := c2Recs.headD emptyHitRecord

def c10Recs : List HitRecord := (parse_test_output c10Plain).toOption.getD []

def c10Rec0 : HitRecord := c10Recs.headD emptyHitRecord

/-- Concrete input files for the idempotence witness. -/
def c9Files : List InFile :=
  [⟨"hitratio_20240101.txt",
    .ok ("=== RUN   TestUniform_LRU_Size1000\n" ++ hitBlock1000)⟩]

def c9Loaded : List (String × List HitRecord) :=
  (load_test_results (fun _ => true) c9Files).toOption.getD []

def c9BenchFiles : List InFile :=
  [⟨"bench_20240101.txt", .ok "BenchmarkGet-8 1000 52.3 ns/op"⟩]

def c9BenchLoaded : List (String × List BenchRecord) :=
  (load_benchmark_results (fun _ => true) c9BenchFiles).toOption.getD []

end HCache

namespace HCache

section Sanity

example :
    parse_benchmark_file "BenchmarkGet-8 1000 52.3 ns/op" =
      [{ name := "BenchmarkGet".data, full_name := "BenchmarkGet".data,
         procs := 8, iterations := 1000, ns_per_op := (523 : Rat)/10,
         bytes_per_op := 0, allocs_per_op := 0, params := [] }] := by decide

example :
    (parse_benchmark_file "BenchmarkSet 500 10 ns/op 16 B/op 2 allocs/op").map
        (fun r => (r.bytes_per_op, r.allocs_per_op, r.procs)) = [(16, 2, 1)] := by
  decide

example : parse_benchmark_file "BenchmarkGet-8 1000 52." = [] := by decide

example : parse_benchmark_file "garbage" = [] := by decide

example :
    (parse_test_output
        ("=== RUN   TestZipfLow_LRU_Size5000\n测试结果:\n总操作数: 1000\n命中数: 800\n未命中数: 200\n命中率: 80.0%\n淘汰数: 50\n淘汰比率: 5.0%\n持续时间: 123.4ms\n")).toOption.map
      (List.map (fun r =>
        (r.distribution, r.policy, r.cache_size, r.duration_ms, r.hit_ratio))) =
    some [(some "zipf-1.07".data, some "lru".data, 5000, (1234 : Rat)/10,
           (800 : Rat)/10)] := by decide

example :
    (parse_vegeta_results "c8.json" "\x7b\"success\": 0.95\x7d").toOption.map
      (List.map (fun r => r.success_rate)) = some [5] := by decide

example :
    (parse_vegeta_results "c8.json" "\x7b\x7d").toOption.map
      (List.map (fun r => r.success_rate)) = some [100] := by decide

example :
    (parse_vegeta_results "c8.json" "[\x7b\x7d, \x7b\"success\": 1\x7d]").toOption.map
      (List.map (fun r => r.success_rate)) = some [100, 0] := by decide

example :
    (parse_vegeta_results "c8.json"
        "\x7b\x7d\nnot json\n\x7b\"success\": 0.5\x7d").toOption.map
      (List.map (fun r => r.success_rate)) = some [100, 50] := by decide

example :
    (parse_vegeta_results "c8_r100_d30s_cache-lru_20240101.json"
        "\x7b\"latencies\": \x7b\"mean\": 2000000\x7d, \"duration\": 3000000000\x7d").toOption.map
      (List.map (fun r =>
        (r.concurrency, r.latency_mean, r.duration, r.test_date, r.cache_config))) =
    some [(8, 2, 3, "20240101".data, "lru_20240101".data)] := by decide

example :
    (extract_top_functions
        ("Showing nodes accounting for 10ms\n      flat  flat%   sum%        cum   cum%\n" ++
         "10.5% 2ms 30.0% 3ms runtime.mapaccess2 extra\nshort row\n")).toOption.map
      (List.map (fun r => (r.flat_pct, r.function))) =
    some [((105 : Rat)/10, "runtime.mapaccess2 extra".data)] := by decide

example : extract_top_functions "nothing here" = .ok [] := by decide

example : dateValid8 "20240101".data = true := by decide

example : dateValid8 "00000000".data = false := by decide

example : dateValid8 "20230229".data = false := by decide

example :
    benchMetaSearch "cache_bench_20240101.txt".data =
      some ("cache_bench".data, "20240101".data) := by decide

example :
    (load_benchmark_results (fun _ => true)
        [⟨"bench_20240101.txt", .ok "no benchmark lines"⟩]) =
      .ok [("bench_20240101.txt", [])] := by decide

example :
    isErr (load_benchmark_results (fun _ => true)
        [⟨"bad_20240101.txt", .error "unreadable"⟩,
         ⟨"good_20240101.txt", .ok "BenchmarkGet-8 1000 52.3 ns/op"⟩]) = true := by
  decide

example :
    (load_test_results (fun _ => true)
        [⟨"junk.log", .error "unreadable"⟩,
         ⟨"hitratio_20240101.txt",
          .ok ("=== RUN   TestUniform_FIFO\n测试结果:\n总操作数: 10\n命中数: 5\n未命中数: 5\n命中率: 50.0%\n淘汰数: 0\n淘汰比率: 0.0%\n持续时间: 2s\n")⟩]).toOption.map
      (List.map (fun p => (p.1, p.2.map (fun r => (r.policy, r.duration_ms))))) =
    some [("hitratio_20240101.txt", [(some "fifo".data, (2000 : Rat))])] := by
  decide

end Sanity

end HCache

namespace HCache

/-! ## Helper lemmas -/

theorem ebind_ok {α β : Type} {m : Except String α} {g : α → Except String β}
    {y : β} (h : (m >>= g) = .ok y) : ∃ v, g v = .ok y ∧ m = .ok v := by
  cases m with
  | error e =>
    simp only [Bind.bind, Except.bind] at h
    exact Except.noConfusion h
  | ok v => exact ⟨v, by simpa only [Bind.bind, Except.bind] using h, rfl⟩

theorem mapE_mem {α β : Type} {f : α → Except String β} :
    ∀ {l : List α} {bs : List β}, mapE f l = .ok bs →
      ∀ b ∈ bs, ∃ a ∈ l, f a = .ok b := by
  intro l
  induction l with
  | nil =>
    intro bs h b hb
    unfold mapE at h
    cases h
    simp at hb
  | cons a as ih =>
    intro bs h b hb
    unfold mapE at h
    cases hfa : f a with
    | error e => rw [hfa] at h; cases h
    | ok v =>
      rw [hfa] at h
      cases hrest : mapE f as with
      | error e => rw [hrest] at h; cases h
      | ok vs =>
        rw [hrest] at h
        cases h
        rcases List.mem_cons.mp hb with hb | hb
        · exact ⟨a, List.mem_cons_self a as, hb ▸ hfa⟩
        · obtain ⟨a2, ha2, hfa2⟩ := ih hrest b hb
          exact ⟨a2, List.mem_cons_of_mem a ha2, hfa2⟩

theorem mapE_ok_length {α β : Type} {f : α → Except String β} :
    ∀ {l : List α} {bs : List β}, mapE f l = .ok bs → bs.length = l.length := by
  intro l
  induction l with
  | nil => intro bs h; unfold mapE at h; cases h; rfl
  | cons a as ih =>
    intro bs h
    unfold mapE at h
    cases hfa : f a with
    | error e => rw [hfa] at h; cases h
    | ok v =>
      rw [hfa] at h
      cases hrest : mapE f as with
      | error e => rw [hrest] at h; cases h
      | ok vs =>
        rw [hrest] at h
        cases h
        simp [ih hrest]

theorem mapE_cons_err {α β : Type} (f : α → Except String β) (a : α)
    (as : List α) :
    isErr (mapE f (a :: as)) = (isErr (f a) || isErr (mapE f as)) := by
  cases hfa : f a with
  | error e => simp [mapE, hfa, isErr]
  | ok v =>
    cases hrest : mapE f as with
    | error e => simp [mapE, hfa, hrest, isErr]
    | ok vs => simp [mapE, hfa, hrest, isErr]

theorem mapE_err_iff {α β : Type} {f : α → Except String β} :
    ∀ {l : List α}, isErr (mapE f l) = true ↔ ∃ a ∈ l, isErr (f a) = true := by
  intro l
  induction l with
  | nil => simp [mapE, isErr]
  | cons a as ih => simp [mapE_cons_err, Bool.or_eq_true, ih]

theorem toOption_none_iff {α : Type} (x : Except String α) :
    x.toOption = none ↔ isErr x = true := by
  cases x <;> simp [Except.toOption, isErr]

theorem splitOnLF_no_occ {ch : Char} :
    ∀ (cs : List Char) (fuel : Nat), (∀ c ∈ cs, ¬ c = ch) →
      splitOnLF ch [] fuel cs = [cs] := by
  intro cs
  induction cs with
  | nil => intro fuel _; cases fuel <;> rfl
  | cons c cs ih =>
    intro fuel hno
    cases fuel with
    | zero => rfl
    | succ fu =>
      have hc : ¬ c = ch := hno c (List.mem_cons_self c cs)
      have : splitOnLF ch [] fu cs = [cs] :=
        ih fu (fun c2 h2 => hno c2 (List.mem_cons_of_mem c h2))
      unfold splitOnLF
      rw [if_neg (by simpa [startsWithL] using hc), this]

theorem splitOnS_no_occ {ch : Char} {cs : List Char}
    (h : ∀ c ∈ cs, ¬ c = ch) : splitOnS [ch] cs = [cs] :=
  splitOnLF_no_occ cs cs.length h

end HCache

namespace HCache

theorem benchLineTail_name {name : List Char} {procs : Option (List Char)}
    {cs : List Char} {g : BenchGroups}
    (h : benchLineTail name procs cs = some g) : g.name = name := by
  unfold benchLineTail at h
  simp only [bind, Option.bind_eq_some] at h
  obtain ⟨cs1, h1, h⟩ := h
  obtain ⟨⟨iters, cs2⟩, h2, h⟩ := h
  obtain ⟨cs3, h3, h⟩ := h
  obtain ⟨⟨ns, cs4⟩, h4, h⟩ := h
  obtain ⟨⟨bOpt, aOpt⟩, h5, h⟩ := h
  cases h
  rfl

theorem benchLineRest_name {name rest : List Char} {g : BenchGroups}
    (h : benchLineRest name rest = some g) : g.name = name := by
  unfold benchLineRest at h
  split at h
  · split at h
    · exact Option.noConfusion h
    · split at h
      next g2 heq =>
        cases h
        exact benchLineTail_name heq
      next heq => exact benchLineTail_name h
  · exact benchLineTail_name h

theorem benchLineMatch_name {line : List Char} {g : BenchGroups}
    (h : benchLineMatch line = some g) :
    ∀ c ∈ g.name, isWordC c = true := by
  unfold benchLineMatch at h
  split at h
  case isFalse => exact Option.noConfusion h
  case isTrue hpre =>
    split at h
    case isTrue => exact Option.noConfusion h
    case isFalse hne =>
      intro c hc
      rw [benchLineRest_name h] at hc
      rcases List.mem_append.mp hc with hc | hc
      · have hbm : ∀ c2 ∈ "Benchmark".data, isWordC c2 = true := by decide
        exact hbm c hc
      · exact List.mem_takeWhile_imp hc

end HCache

namespace HCache

/-! ## Claim theorems -/

/-- C4: for every line matching the benchmark grammar, `bytes_per_op` and
`allocs_per_op` are 0 (never null) when the optional groups are absent from
the line, every `/key=value` segment of the benchmark name becomes a
parameters entry with `parameters[key] == value`, and the base name before
the first `/` becomes the record's group key.  (The name token `\w+` of the
grammar cannot contain `/`, so the segment clause holds because a matched
name never has segments.) -/
theorem C4_bench_record_contract {line : List Char} {g : BenchGroups}
    (h : benchLineMatch line = some g) :
    (g.bytesPerOp = none → (buildBenchRecord g).bytes_per_op = 0) ∧
    (g.allocsPerOp = none → (buildBenchRecord g).allocs_per_op = 0) ∧
    (buildBenchRecord g).name = (splitOnS ['/'] g.name).headD [] ∧
    ∀ seg ∈ (splitOnS ['/'] g.name).tail, ∀ kv : List Char × List Char,
      splitFirstEq seg = some kv →
      lookupParam (buildBenchRecord g).params kv.1 = some kv.2 := by
  have hword := benchLineMatch_name h
  have hnos : ∀ c ∈ g.name, ¬ c = '/' := by
    intro c hc he
    have hcw := hword c hc
    rw [he] at hcw
    exact absurd hcw (by decide)
  have hsplit : splitOnS ['/'] g.name = [g.name] := splitOnS_no_occ hnos
  refine ⟨?_, ?_, rfl, ?_⟩
  · intro hb; simp [buildBenchRecord, hb]
  · intro ha; simp [buildBenchRecord, ha]
  · rw [hsplit]
    intro seg hseg
    simp at hseg

/-- Witness for C4 at the concrete line `BenchmarkGet 1000 52.3 ns/op`
(both optional groups absent, no segments in the name). -/
theorem C4_bench_record_contract_witness :
    (buildBenchRecord c4G).bytes_per_op = 0 ∧
    (buildBenchRecord c4G).allocs_per_op = 0 ∧
    (buildBenchRecord c4G).name = "BenchmarkGet".data :=
  have h : benchLineMatch "BenchmarkGet 1000 52.3 ns/op".data = some c4G := by
    decide
  ⟨(C4_bench_record_contract h).1 (by decide),
   (C4_bench_record_contract h).2.1 (by decide),
   ((C4_bench_record_contract h).2.2.1).trans (by decide)⟩

/-- C5: the benchmark parser is total (it cannot raise), skips every line
not matching the grammar and produces exactly one record per matching line;
the concrete five-line file with one truncated line yields exactly four
records. -/
theorem C5_malformed_line_resilience :
    (∀ content : String,
      (parse_benchmark_file content).length =
        (splitOnS ['\n'] content.data).countP
          (fun l => (benchLineMatch l).isSome)) ∧
    (parse_benchmark_file c5File).length = 4 := by
  constructor
  · intro content
    unfold parse_benchmark_file
    rw [List.length_filterMap_eq_countP]
    congr 1
    funext l
    cases benchLineMatch l <;> rfl
  · decide

/-- C6: a hit-ratio duration string is resolved by checking the unit
suffixes `µs`, `ns`, `ms`, `s` in that fixed order and normalised to
milliseconds: `500µs` ↦ 0.5, `2s` ↦ 2000.0, `10ns` ↦ 0.00001, `123.4ms` ↦
exactly 123.4. -/
theorem C6_duration_normalization :
    durationMsE "500µs".data = .ok ((5 : Rat)/10) ∧
    durationMsE "2s".data = .ok 2000 ∧
    durationMsE "10ns".data = .ok ((1 : Rat)/100000) ∧
    durationMsE "123.4ms".data = .ok ((1234 : Rat)/10) := by
  decide

end HCache

namespace HCache

theorem extractVegMetrics_success {item : Json} {m : VegMetrics} {s : Rat}
    (h : extractVegMetrics item = .ok m)
    (hs : jGetNumD item "success".data 0 = .ok s) :
    m.success_rate = 100 * (1 - s) := by
  unfold extractVegMetrics at h
  obtain ⟨lat, h, h1⟩ := ebind_ok h
  obtain ⟨mean, h, h2⟩ := ebind_ok h
  obtain ⟨p50, h, h3⟩ := ebind_ok h
  obtain ⟨p90, h, h4⟩ := ebind_ok h
  obtain ⟨p95, h, h5⟩ := ebind_ok h
  obtain ⟨p99, h, h6⟩ := ebind_ok h
  obtain ⟨pmax, h, h7⟩ := ebind_ok h
  obtain ⟨tp, h, h8⟩ := ebind_ok h
  obtain ⟨succ, h, h9⟩ := ebind_ok h
  obtain ⟨req, h, h10⟩ := ebind_ok h
  obtain ⟨dur, h, h11⟩ := ebind_ok h
  obtain ⟨err, h, h12⟩ := ebind_ok h
  obtain ⟨rate, h, h13⟩ := ebind_ok h
  cases h
  rw [hs] at h9
  cases h9
  rfl

/-- C1: every record returned by `parse_vegeta_results` comes from a
successful extraction of one parsed result object, and whenever the
extraction succeeds the emitted `success_rate` metric equals `100 × (1 − s)`
where `s` is the payload's `success` field (0 when the field is absent, per
`item.get('success', 0)`). -/
theorem C1_success_rate_transform :
    (∀ (filename content : String) (recs : List VegRecord),
      parse_vegeta_results filename content = .ok recs → ∀ r ∈ recs,
        ∃ item ∈ vegItems content.data,
          extractVegRecord filename.data item = .ok r) ∧
    ∀ (filename : List Char) (item : Json) (r : VegRecord) (s : Rat),
      extractVegRecord filename item = .ok r →
      jGetNumD item "success".data 0 = .ok s →
      r.success_rate = 100 * (1 - s) := by
  constructor
  · intro filename content recs h r hr
    unfold parse_vegeta_results at h
    exact mapE_mem h r hr
  · intro filename item r s h hs
    unfold extractVegRecord at h
    obtain ⟨p, h, h1⟩ := ebind_ok h
    obtain ⟨m, h, h2⟩ := ebind_ok h
    cases h
    exact extractVegMetrics_success h2 hs

/-- Witness for C1: a payload with `success = 0.95` yields
`success_rate = 5`, a payload without a `success` field yields `100`, both
through the full `parse_vegeta_results` pipeline. -/
theorem C1_success_rate_transform_witness :
    c1Rec.success_rate = 100 * (1 - (19 : Rat)/20) ∧
    c1RecEmpty.success_rate = 100 * (1 - 0) ∧
    (parse_vegeta_results "c8.json" "\x7b\"success\": 0.95\x7d").toOption.map
      (List.map (fun r => r.success_rate)) = some [5] ∧
    (parse_vegeta_results "c8.json" "\x7b\x7d").toOption.map
      (List.map (fun r => r.success_rate)) = some [100] :=
  ⟨C1_success_rate_transform.2 "c8.json".data c1Item c1Rec ((19 : Rat)/20)
      (by rfl) (by rfl),
   C1_success_rate_transform.2 "c8.json".data c1ItemEmpty c1RecEmpty 0
      (by rfl) (by rfl),
   by decide, by decide⟩

/-- C7: `parse_vegeta_results` accepts all three physical encodings —
single JSON object, JSON array of objects, newline-delimited objects — and
when whole-document parsing fails, a line that also fails JSON parsing is
dropped while the remaining lines still produce records; the parse does not
raise on such a line. -/
theorem C7_three_encodings_partial_parse :
    (parse_vegeta_results "c8.json" "\x7b\"success\": 0.5\x7d").toOption.map
      List.length = some 1 ∧
    (parse_vegeta_results "c8.json"
        "[\x7b\x7d, \x7b\"success\": 1\x7d]").toOption.map
      List.length = some 2 ∧
    (parse_vegeta_results "c8.json" "\x7b\x7d\n\x7b\"success\": 1\x7d").toOption.map
      List.length = some 2 ∧
    (jsonLoadsL "not json".data).isNone = true ∧
    (parse_vegeta_results "c8.json"
        "\x7b\x7d\nnot json\n\x7b\"success\": 0.5\x7d").toOption.map
      (List.map (fun r => r.success_rate)) = some [100, 50] := by
  decide

/-- C8: the top-functions parser returns an empty result — not an error —
when no header line is found, skips every non-blank row with fewer than
five whitespace-separated tokens, and joins all tokens beyond the fourth
into the function symbol (so symbols with embedded whitespace survive). -/
theorem C8_top_functions_contract :
    (∀ stdout : String,
      (splitOnS ['\n'] (stripL stdout.data)).findIdx? isHeaderLine = none →
      extract_top_functions stdout = .ok []) ∧
    (∀ line : List Char, ¬ stripL line = [] →
      (splitWsL (stripL line)).length < 5 → parsePprofRow line = .ok none) ∧
    (∀ (line : List Char) (r : TopRecord), parsePprofRow line = .ok (some r) →
      r.function = List.intercalate [' '] ((splitWsL (stripL line)).drop 4) ∧
      5 ≤ (splitWsL (stripL line)).length) := by
  refine ⟨?_, ?_, ?_⟩
  · intro stdout h
    simp only [extract_top_functions]
    rw [h]
  · intro line hne hlen
    unfold parsePprofRow
    rw [if_neg hne, if_pos hlen]
  · intro line r h
    unfold parsePprofRow at h
    split at h
    · exact Option.noConfusion (Except.ok.inj h)
    · split at h
      · exact Option.noConfusion (Except.ok.inj h)
      · cases hf : parseFloatL (replaceAllL ['%'] []
            ((splitWsL (stripL line)).getD 0 [])) with
        | none =>
          rw [hf] at h
          cases hc : parseFloatL (replaceAllL ['%'] []
              ((splitWsL (stripL line)).getD 2 [])) with
          | none =>
            rw [hc] at h
            exact Except.noConfusion h
          | some cp =>
            rw [hc] at h
            exact Except.noConfusion h
        | some fp =>
          cases hc : parseFloatL (replaceAllL ['%'] []
              ((splitWsL (stripL line)).getD 2 [])) with
          | none =>
            rw [hf, hc] at h
            exact Except.noConfusion h
          | some cp =>
            rw [hf, hc] at h
            have hr := Option.some.inj (Except.ok.inj h)
            rw [← hr]
            exact ⟨rfl, by omega⟩

end HCache

namespace HCache

theorem convertHitMatch_params (content : List Char) (m : RawHit)
    (r : HitRecord) (h : convertHitMatch content m = .ok r) :
    r.distribution = scanDistribution (testContext content r.total_operations) ∧
    r.policy = scanPolicy (testContext content r.total_operations) ∧
    r.cache_size = resolveCacheSize (testContext content r.total_operations) ∧
    r.test_name = searchTestName (testContext content r.total_operations) := by
  unfold convertHitMatch at h
  cases h1 : parseFloatE m.ratioStr <;>
    cases h2 : parseFloatE m.evRatioStr <;>
    cases h3 : durationMsE m.durStr <;>
    rw [h1, h2, h3] at h
  all_goals
    first
      | exact Except.noConfusion h
      | (cases h; exact ⟨rfl, rfl, rfl, rfl⟩)

/-- C2 counterexample: two statistics blocks share the total count 1000;
the text immediately preceding the second block, back to its own `=== RUN`
marker, names `Uniform` and `FIFO`, yet the second record keeps the
parameters resolved from the first block's context, because the code cuts
the context at the first occurrence of `总操作数: 1000` in the whole
transcript. -/
theorem C2_context_resolution_counterexample :
    (parse_test_output c2Cex).toOption.map
        (List.map (fun r => (r.distribution, r.policy))) =
      some [(some "zipf-1.07".data, some "lru".data),
            (some "zipf-1.07".data, some "lru".data)] ∧
    c2Cex = c2Example ++ c2CtxB ++ hitBlock1000 ∧
    c2CtxB = "=== RUN" ++ "   TestUniform_FIFO_Size5000\n" ∧
    scanDistribution "   TestUniform_FIFO_Size5000\n".data =
      some "uniform".data ∧
    scanPolicy "   TestUniform_FIFO_Size5000\n".data = some "fifo".data := by
  refine ⟨by decide, rfl, rfl, by decide, by decide⟩

/-- C2 amended: the categorical parameters of every emitted record are
resolved by the first-match-wins keyword scans over the context slice that
precedes the FIRST occurrence in the transcript of the record's
total-operations string, cut back to the nearest `=== RUN` before it (this
is the text immediately preceding the record's own block whenever that
first occurrence is at the block itself, e.g. when total counts are
distinct); the claimed worked example resolves to
zipf-1.07/lru/5000/123.4 ms. -/
theorem C2_context_resolution_amended :
    ((parse_test_output c2Example).toOption.map
        (List.map (fun r =>
          (r.distribution, r.policy, r.cache_size, r.duration_ms))) =
      some [(some "zipf-1.07".data, some "lru".data, 5000, (1234 : Rat)/10)]) ∧
    ∀ (content : String) (recs : List HitRecord),
      parse_test_output content = .ok recs → ∀ r ∈ recs,
        r.distribution =
          scanDistribution (testContext content.data r.total_operations) ∧
        r.policy = scanPolicy (testContext content.data r.total_operations) ∧
        r.cache_size =
          resolveCacheSize (testContext content.data r.total_operations) := by
  constructor
  · decide
  · intro content recs h r hr
    unfold parse_test_output at h
    obtain ⟨m, hm, hcm⟩ := mapE_mem h r hr
    obtain ⟨hd, hp, hc, _⟩ := convertHitMatch_params content.data m r hcm
    exact ⟨hd, hp, hc⟩

/-- Witness for the C2 amended statement at the worked example. -/
theorem C2_context_resolution_amended_witness :
    c2Rec0.distribution =
      scanDistribution (testContext c2Example.data c2Rec0.total_operations) ∧
    scanDistribution (testContext c2Example.data c2Rec0.total_operations) =
      some "zipf-1.07".data :=
  ⟨(C2_context_resolution_amended.2 c2Example c2Recs (by rfl) c2Rec0
      (by decide)).1,
   by decide⟩

/-- C10 counterexample: a context containing the token `Size0` produces the
cache size 0, which is not positive. -/
theorem C10_cache_size_counterexample :
    (parse_test_output c10Cex).toOption.map
        (List.map (fun r => r.cache_size)) = some [0] ∧
    containsSubL "Size0".data (testContext c10Cex.data 1000) = true := by
  decide

/-- C10 amended: in every record emitted by the hit-ratio parser,
`cache_size` is a concrete non-negative integer — the number of an explicit
`Size<digits>` token in the context (which is 0 for `Size0`), or 1000
(small), 100000 (large), or the fallback 10000 — and is never null, even
when distribution and policy are both unresolved. -/
theorem C10_cache_size_amended (content : String) (recs : List HitRecord)
    (h : parse_test_output content = .ok recs) :
    ∀ r ∈ recs,
      searchSizeNum (testContext content.data r.total_operations) =
          some r.cache_size ∨
        r.cache_size = 1000 ∨ r.cache_size = 100000 ∨ r.cache_size = 10000 := by
  intro r hr
  unfold parse_test_output at h
  obtain ⟨m, hm, hcm⟩ := mapE_mem h r hr
  obtain ⟨_, _, hc, _⟩ := convertHitMatch_params content.data m r hcm
  unfold resolveCacheSize at hc
  cases hsz : searchSizeNum (testContext content.data r.total_operations) with
  | some n =>
    rw [hsz] at hc
    have hc2 : r.cache_size = n := hc
    exact Or.inl (by rw [hc2])
  | none =>
    rw [hsz] at hc
    have hc2 : r.cache_size =
        (if containsSubL "small".data
            (lowerL (testContext content.data r.total_operations)) = true
         then 1000
         else if containsSubL "large".data
            (lowerL (testContext content.data r.total_operations)) = true
         then 100000 else 10000) := hc
    right
    split at hc2
    · exact Or.inl hc2
    · split at hc2
      · exact Or.inr (Or.inl hc2)
      · exact Or.inr (Or.inr hc2)

/-- Witness for the C10 amended statement: a transcript whose context has
no keyword yields a record with null distribution and policy but concrete
cache size 10000. -/
theorem C10_cache_size_amended_witness :
    (searchSizeNum (testContext c10Plain.data c10Rec0.total_operations) =
        some c10Rec0.cache_size ∨
      c10Rec0.cache_size = 1000 ∨ c10Rec0.cache_size = 100000 ∨
      c10Rec0.cache_size = 10000) ∧
    c10Rec0.distribution = none ∧ c10Rec0.policy = none ∧
    c10Rec0.cache_size = 10000 :=
  ⟨C10_cache_size_amended c10Plain c10Recs (by rfl) c10Rec0 (by decide),
   by decide, by decide, by decide⟩

end HCache

namespace HCache

/-- C3 counterexample: (a) a directory whose single benchmark file parses
but yields zero usable records returns an empty result without raising —
the claimed error condition "no usable records across all files" does not
trigger an error; (b) in the benchmark loader a per-file read failure is
not caught: it aborts the whole load even though a second, well-formed file
is present. -/
theorem C3_loader_counterexample :
    load_benchmark_results (fun _ => true)
        [⟨"bench_20240101.txt", .ok "no benchmark lines"⟩] =
      .ok [("bench_20240101.txt", [])] ∧
    isErr (load_benchmark_results (fun _ => true)
        [⟨"bad_20240101.txt", .error "unreadable"⟩,
         ⟨"good_20240101.txt", .ok "BenchmarkGet-8 1000 52.3 ns/op"⟩]) =
      true := by
  constructor
  · decide
  · decide

/-- C3 amended: the hit-ratio and concurrency loaders catch every per-file
failure and keep going, raising exactly when no candidate file is processed
successfully; the benchmark loader does not catch per-file failures — a
read error or invalid filename date aborts the load — and otherwise raises
exactly when there are no candidate files.  A successfully processed file
with zero records counts as processed, so a directory with files but no
usable records returns an empty result without error. -/
theorem C3_loader_error_conditions :
    (∀ (pattern : String → Bool) (files : List InFile),
      isErr (load_benchmark_results pattern files) = true ↔
        (files.filter (benchCandidate pattern) = [] ∨
         ∃ f ∈ files.filter (benchCandidate pattern),
           isErr (procBenchFile f) = true)) ∧
    (∀ (pattern : String → Bool) (files : List InFile),
      isErr (load_test_results pattern files) = true ↔
        ∀ f ∈ files.filter (hitCandidate pattern),
          isErr (procHitFile f) = true) ∧
    (∀ (pattern : String → Bool) (files : List InFile),
      isErr (load_concurrency_results pattern files) = true ↔
        ∀ f ∈ files.filter (concCandidate pattern),
          isErr (procConcFile f) = true) := by
  refine ⟨?_, ?_, ?_⟩
  · intro pattern files
    cases hm : mapE procBenchFile (files.filter (benchCandidate pattern)) with
    | error e =>
      have hred : load_benchmark_results pattern files = .error e := by
        unfold load_benchmark_results
        rw [hm]
      rw [hred]
      simp only [isErr, true_iff]
      exact Or.inr (mapE_err_iff.mp (by rw [hm]; rfl))
    | ok l =>
      have hred : load_benchmark_results pattern files =
          (if l.isEmpty = true then .error "No benchmark results found"
           else .ok l) := by
        unfold load_benchmark_results
        rw [hm]
      rw [hred]
      have hlen := mapE_ok_length hm
      by_cases hl : l.isEmpty = true
      · rw [if_pos hl]
        simp only [isErr, true_iff]
        left
        have hnil : l = [] := List.isEmpty_iff.mp hl
        rw [hnil] at hlen
        exact List.length_eq_zero.mp hlen.symm
      · rw [if_neg hl]
        simp only [isErr, Bool.false_eq_true, false_iff]
        intro hor
        rcases hor with hnil | ⟨f, hf, herr⟩
        · rw [hnil] at hlen
          simp only [List.length_nil] at hlen
          exact hl (List.isEmpty_iff.mpr (List.length_eq_zero.mp hlen))
        · have hbad : isErr (mapE procBenchFile
              (files.filter (benchCandidate pattern))) = true :=
            mapE_err_iff.mpr ⟨f, hf, herr⟩
          rw [hm] at hbad
          exact Bool.noConfusion hbad
  · intro pattern files
    simp only [load_test_results]
    by_cases hl : ((files.filter (hitCandidate pattern)).filterMap
        (fun f => (procHitFile f).toOption)).isEmpty
    · rw [if_pos hl]
      simp only [isErr, true_iff]
      intro f hf
      exact (toOption_none_iff _).mp
        (List.filterMap_eq_nil_iff.mp (List.isEmpty_iff.mp hl) f hf)
    · rw [if_neg hl]
      simp only [isErr, Bool.false_eq_true, false_iff]
      intro hall
      exact hl (List.isEmpty_iff.mpr (List.filterMap_eq_nil_iff.mpr
        (fun f hf => (toOption_none_iff _).mpr (hall f hf))))
  · intro pattern files
    simp only [load_concurrency_results]
    by_cases hl : ((files.filter (concCandidate pattern)).filterMap
        (fun f => (procConcFile f).toOption)).isEmpty
    · rw [if_pos hl]
      simp only [isErr, true_iff]
      intro f hf
      exact (toOption_none_iff _).mp
        (List.filterMap_eq_nil_iff.mp (List.isEmpty_iff.mp hl) f hf)
    · rw [if_neg hl]
      simp only [isErr, Bool.false_eq_true, false_iff]
      intro hall
      exact hl (List.isEmpty_iff.mpr (List.filterMap_eq_nil_iff.mpr
        (fun f hf => (toOption_none_iff _).mpr (hall f hf))))

/-- C9: parsing and loading are deterministic functions of the supplied
file contents: a load step's outcome is independent of the analyzer's
prior state, re-running a load over unchanged files reproduces the
identical record frame and analyzer state, and the descriptive statistics
computed afterwards are identical. -/
theorem C9_idempotent_reruns :
    (∀ (a b : BenchAnalyzer) (pattern : String → Bool) (files : List InFile),
      benchLoadStep a pattern files = benchLoadStep b pattern files) ∧
    (∀ (a b : HitAnalyzer) (pattern : String → Bool) (files : List InFile),
      hitLoadStep a pattern files = hitLoadStep b pattern files) ∧
    (∀ (a : HitAnalyzer) (pattern : String → Bool) (files : List InFile)
        (a1 : HitAnalyzer) (l : List (String × List HitRecord)),
      hitLoadStep a pattern files = .ok (a1, l) →
        hitLoadStep a1 pattern files = .ok (a1, l) ∧
        hitStatsStep a1 =
          .ok (generate_descriptive_stats ((l.map (fun p => p.2)).flatten))) := by
  refine ⟨fun a b pattern files => rfl, fun a b pattern files => rfl, ?_⟩
  intro a pattern files a1 l h
  refine ⟨h, ?_⟩
  unfold hitLoadStep at h
  cases hload : load_test_results pattern files with
  | error e =>
    rw [hload] at h
    exact Except.noConfusion h
  | ok l2 =>
    rw [hload] at h
    cases h
    rfl

/-- Witness for C9: a concrete one-file run re-runs to the identical
result, the statistics step evaluates, and the benchmark load step is
insensitive to the prior analyzer state. -/
theorem C9_idempotent_reruns_witness :
    hitLoadStep ⟨some c9Loaded⟩ (fun _ => true) c9Files =
      .ok (⟨some c9Loaded⟩, c9Loaded) ∧
    hitStatsStep ⟨some c9Loaded⟩ =
      .ok (generate_descriptive_stats ((c9Loaded.map (fun p => p.2)).flatten)) ∧
    benchLoadStep ⟨some c9BenchLoaded⟩ (fun _ => true) c9BenchFiles =
      benchLoadStep ⟨none⟩ (fun _ => true) c9BenchFiles :=
  ⟨(C9_idempotent_reruns.2.2 ⟨none⟩ (fun _ => true) c9Files ⟨some c9Loaded⟩
      c9Loaded (by rfl)).1,
   (C9_idempotent_reruns.2.2 ⟨none⟩ (fun _ => true) c9Files ⟨some c9Loaded⟩
      c9Loaded (by rfl)).2,
   C9_idempotent_reruns.1 ⟨some c9BenchLoaded⟩ ⟨none⟩ (fun _ => true)
      c9BenchFiles⟩

end HCache

namespace HCache

/-- Witness for C8: a headerless text yields an empty ok-result, the
concrete row `1.5% 2ms 30% 3ms runtime.foo extra` keeps its
embedded-whitespace symbol, and a four-token row is skipped. -/
theorem C8_top_functions_contract_witness :
    extract_top_functions "no header here" = .ok [] ∧
    c8Rec.function = "runtime.foo extra".data ∧
    parsePprofRow "a b c d".data = .ok none :=
  ⟨C8_top_functions_contract.1 "no header here" (by decide),
   ((C8_top_functions_contract.2.2 c8Row c8Rec (by rfl)).1).trans (by decide),
   C8_top_functions_contract.2.1 "a b c d".data (by decide) (by decide)⟩

end HCache
